import Mathlib

/-!
# CodeVibe Journal backend: verification of the service layer

Shallow embedding of the repository-analysis pipeline, the daily-log
manager and the activity aggregator of the CodeVibe Journal backend
(`src/services/*.ts`, `src/utils/helpers.ts`, `supabase` schema), together
with proofs about the spec claims.

Conventions of the embedding:
* TypeScript records (`Record<string, number>`) become insertion-ordered
  association lists, mirroring JS object key order.
* Calendar dates are integer day numbers; `Date` arithmetic at midnight
  granularity is exact integer arithmetic.
* `DECIMAL` columns (hours worked) become `Rat`.
* Fallible service calls return `Except AppError`.
* External calls (GitHub, OpenAI) are modelled by explicit environments
  that record the outcome each call would produce.
-/

namespace CodeVibe

/-! ## Error type (src/middleware/error.middleware.ts, `AppError`) -/

/-- Typed service error carrying an HTTP status code and a message. -/
structure AppError where
  statusCode : Nat
  message : String
deriving DecidableEq, Repr

/-! ## Codebase scanner (src/services/scanner.service.ts) -/

/-- File-tree node kind: GitHub tree entries are either files or directories. -/
inductive NodeType where
  | file
  | dir
deriving DecidableEq, BEq, Repr

/-- One node of the flat file tree handed to the scanner. -/
structure FileTreeNode where
  path : String
  type : NodeType
  size : Option Nat := none
  extension : Option String := none
deriving DecidableEq, BEq, Repr

/-- The fixed extension-to-language lookup table of `detectLanguages`. -/
def languageMap : List (String × String) :=
  [("js", "JavaScript"), ("jsx", "JavaScript"), ("ts", "TypeScript"),
   ("tsx", "TypeScript"), ("py", "Python"), ("java", "Java"), ("cpp", "C++"),
   ("c", "C"), ("cs", "C#"), ("go", "Go"), ("rs", "Rust"), ("rb", "Ruby"),
   ("php", "PHP"), ("swift", "Swift"), ("kt", "Kotlin"), ("scala", "Scala"),
   ("html", "HTML"), ("css", "CSS"), ("scss", "SCSS"), ("sass", "SASS"),
   ("vue", "Vue"), ("svelte", "Svelte"), ("dart", "Dart"), ("r", "R"),
   ("sql", "SQL"), ("sh", "Shell"), ("yaml", "YAML"), ("yml", "YAML"),
   ("json", "JSON"), ("xml", "XML"), ("md", "Markdown")]

/-- Association-list lookup, mirroring a JS object property read. -/
def lookupTable (table : List (String × String)) (key : String) : Option String :=
  (table.find? (fun p => p.1 == key)).map (·.2)

/-- `languages[language] = (languages[language] || 0) + 1` on an
insertion-ordered association list. -/
def bumpCount (m : List (String × Nat)) (key : String) : List (String × Nat) :=
  if m.any (fun p => p.1 == key) then
    m.map (fun p => if p.1 == key then (p.1, p.2 + 1) else p)
  else m ++ [(key, 1)]

/-- `ScannerService.detectLanguages`: histogram of recognised extensions;
unmatched or missing extensions are ignored. -/
def detectLanguages (files : List FileTreeNode) : List (String × Nat) :=
  files.foldl
    (fun languages file =>
      match file.extension with
      | none => languages
      | some ext =>
        match lookupTable languageMap ext with
        | none => languages
        | some language => bumpCount languages language)
    []

/-- The fixed dependency-manifest allow-list of `extractDependencies`. -/
def dependencyFiles : List String :=
  ["package.json", "requirements.txt", "Gemfile", "go.mod", "Cargo.toml",
   "pom.xml", "build.gradle", "composer.json", "Pipfile", "pyproject.toml"]

/-- `file.path.split('/').pop() || ''`. -/
def baseName (path : String) : String :=
  ((path.splitOn "/").getLast?).getD ""

/-- `ScannerService.extractDependencies`: exact basename match against the
allow-list; duplicates across directories each count. -/
def extractDependencies (files : List FileTreeNode) : List String :=
  files.foldl
    (fun found file =>
      let fileName := baseName file.path
      if dependencyFiles.contains fileName then found ++ [fileName] else found)
    []

/-- JS `String.prototype.includes` (substring containment), for a
non-empty pattern. -/
def substrIncludes (s pat : String) : Bool :=
  (s.splitOn pat).length ≥ 2

/-- The fixed marker-path-to-framework table of `detectFrameworks`. -/
def frameworkPatterns : List (String × String) :=
  [("next.config.js", "Next.js"), ("next.config.ts", "Next.js"),
   ("nuxt.config.js", "Nuxt.js"), ("angular.json", "Angular"),
   ("vue.config.js", "Vue.js"), ("svelte.config.js", "Svelte"),
   ("gatsby-config.js", "Gatsby"), ("remix.config.js", "Remix"),
   ("vite.config.js", "Vite"), ("vite.config.ts", "Vite"),
   ("webpack.config.js", "Webpack"), ("rollup.config.js", "Rollup"),
   ("tsconfig.json", "TypeScript"), ("Dockerfile", "Docker"),
   ("docker-compose.yml", "Docker Compose"), (".eslintrc", "ESLint"),
   (".prettierrc", "Prettier"), ("jest.config.js", "Jest"),
   ("vitest.config.ts", "Vitest"), ("cypress.json", "Cypress"),
   ("playwright.config.ts", "Playwright"), ("tailwind.config.js", "Tailwind CSS"),
   ("prisma/schema.prisma", "Prisma"), ("manage.py", "Django"),
   ("app.py", "Flask"), ("main.go", "Go"), ("Cargo.toml", "Rust"),
   ("pom.xml", "Maven"), ("build.gradle", "Gradle")]

/-- JS `Set.add`: append if not already present (insertion order kept). -/
def insertUnique (l : List String) (x : String) : List String :=
  if l.contains x then l else l ++ [x]

/-- `fw.charAt(0).toUpperCase() + fw.slice(1)`. -/
def jsCapitalize (s : String) : String :=
  (s.take 1).toUpper ++ s.drop 1

/-- The generic ecosystem indicator names added whenever a root
`package.json` is present (heuristic stub; contents are never parsed). -/
def frameworkIndicators : List String :=
  ["react", "vue", "angular", "svelte", "express", "fastify", "nestjs", "koa"]

/-- `ScannerService.detectFrameworks`: substring match of marker paths, plus
the capitalised indicator names whenever a root `package.json` exists. -/
def detectFrameworks (files : List FileTreeNode) : List String :=
  let fromPatterns :=
    files.foldl
      (fun acc file =>
        frameworkPatterns.foldl
          (fun acc p => if substrIncludes file.path p.1 then insertUnique acc p.2 else acc)
          acc)
      []
  if files.any (fun f => f.path == "package.json") then
    frameworkIndicators.foldl (fun acc fw => insertUnique acc (jsCapitalize fw)) fromPatterns
  else fromPatterns

/-- File-count contribution of `calculateComplexity` (0-30 points band). -/
def fileCountBand (fileCount : Nat) : Nat :=
  if fileCount < 10 then 5
  else if fileCount < 50 then 10
  else if fileCount < 200 then 15
  else if fileCount < 500 then 20
  else if fileCount < 1000 then 25
  else 30

/-- Directory-count contribution of `calculateComplexity` (0-20 points band). -/
def dirCountBand (dirCount : Nat) : Nat :=
  if dirCount < 5 then 5
  else if dirCount < 15 then 10
  else if dirCount < 30 then 15
  else 20

/-- Language-diversity contribution of `calculateComplexity` (0-20 points
band). Note the branch order: a count of 0 is neither 1 nor 2 and falls
into the `languageCount <= 4` branch, contributing 15. -/
def languageCountBand (languageCount : Nat) : Nat :=
  if languageCount = 1 then 5
  else if languageCount = 2 then 10
  else if languageCount ≤ 4 then 15
  else 20

/-- Dependency-manifest contribution of `calculateComplexity` (0-15 band). -/
def depCountBand (depCount : Nat) : Nat :=
  if depCount = 0 then 0
  else if depCount = 1 then 5
  else if depCount ≤ 3 then 10
  else 15

/-- The config-like filename filter used by `calculateComplexity`. -/
def isConfigLike (f : FileTreeNode) : Bool :=
  let name := baseName f.path
  name.startsWith "." || substrIncludes name "config" || substrIncludes name ".json" ||
    substrIncludes name ".yaml" || substrIncludes name ".yml"

/-- Config-file contribution of `calculateComplexity` (0-15 points band). -/
def configCountBand (configCount : Nat) : Nat :=
  if configCount < 5 then 3
  else if configCount < 10 then 7
  else if configCount < 20 then 11
  else 15

/-- `ScannerService.calculateComplexity`: sum of the five banded
contributions, clamped to at most 100. -/
def calculateComplexity (files directories : List FileTreeNode)
    (languages : List (String × Nat)) (dependencies : List String) : Nat :=
  let score :=
    fileCountBand files.length + dirCountBand directories.length +
      languageCountBand languages.length + depCountBand dependencies.length +
      configCountBand (files.filter isConfigLike).length
  min 100 score

/-- Result of `ScannerService.scanCodebase`. -/
structure ScanResults where
  totalFiles : Nat
  totalDirectories : Nat
  languages : List (String × Nat)
  dependencies : List String
  frameworks : List String
  complexityScore : Nat
  fileTree : List FileTreeNode
deriving DecidableEq, BEq, Repr

/-- `ScannerService.scanCodebase`: the pure scan pipeline. -/
def scanCodebase (fileTree : List FileTreeNode) : ScanResults :=
  let files := fileTree.filter (fun node => node.type == NodeType.file)
  let directories := fileTree.filter (fun node => node.type == NodeType.dir)
  let languages := detectLanguages files
  let dependencies := extractDependencies files
  let frameworks := detectFrameworks files
  let complexityScore := calculateComplexity files directories languages dependencies
  { totalFiles := files.length
    totalDirectories := directories.length
    languages := languages
    dependencies := dependencies
    frameworks := frameworks
    complexityScore := complexityScore
    fileTree := fileTree }

/-! ## Date helpers (src/utils/helpers.ts)

Calendar dates at midnight are modelled as integer day numbers, so JS
`Date` subtraction at midnight granularity is exact integer arithmetic. -/

/-- The `week` branch of `getDateRange`: `weekAgo.setDate(getDate() - 7)`,
so the returned range is `[today - 7, today]` (both endpoints are used
inclusively by the `gte`/`lte` query filters). -/
def getDateRangeWeek (today : Int) : Int × Int := (today - 7, today)

/-- The set of calendar dates admitted by the `gte startDate`/`lte endDate`
filters of `getProductivityMetrics` for the `week` period. -/
def weekRangeDates (today : Int) : Finset Int :=
  Finset.Icc (getDateRangeWeek today).1 (getDateRangeWeek today).2

/-! ## Streak computation (src/services/activity.service.ts,
`ActivityService.calculateStreak`)

The service queries all active-day rows ordered by date descending; the
pure core takes that list of dates (as day numbers) plus the value of
`today` at midnight. -/

/-- Result of `calculateStreak`. -/
structure StreakResult where
  currentStreak : Nat
  longestStreak : Nat
  lastActiveDate : Option Int
deriving DecidableEq, Repr

/-- The current-streak loop: at index `i` the expected date is
`today - i`; any mismatch breaks the loop. -/
def currentStreakFrom (today : Int) : Nat → List Int → Nat
  | _, [] => 0
  | i, d :: rest =>
    if d = today - i then currentStreakFrom today (i + 1) rest + 1 else 0

/-- The longest-streak loop over adjacent pairs: a day difference of
exactly 1 extends the run, anything else closes it; the final
`max longest temp` is applied after the loop. -/
def longestStreakFrom (longest temp : Nat) : List Int → Nat
  | [] => max longest temp
  | [_] => max longest temp
  | a :: b :: rest =>
    if a - b = 1 then longestStreakFrom longest (temp + 1) (b :: rest)
    else longestStreakFrom (max longest temp) 1 (b :: rest)

/-- `ActivityService.calculateStreak` on the descending list of active
dates: zero active days short-circuits to all-zero / no last-active. -/
def calculateStreak (today : Int) (activeDates : List Int) : StreakResult :=
  match activeDates with
  | [] => { currentStreak := 0, longestStreak := 0, lastActiveDate := none }
  | d :: rest =>
    { currentStreak := currentStreakFrom today 0 (d :: rest)
      longestStreak := longestStreakFrom 0 1 (d :: rest)
      lastActiveDate := some d }

/-! ## Retry with exponential backoff (src/utils/helpers.ts,
`retryWithBackoff`)

The attempt function is modelled as a map from the attempt index to the
outcome that call produces. The model also records how many times the
function was invoked and which delays were slept, so that retry counting
is provable. The error payload of the final failure is an `Option`
because with `maxRetries = 0` the JS code throws `undefined`. -/

/-- Outcome of a `retryWithBackoff` run: the result, the number of calls
made to the wrapped function, and the list of backoff delays slept. -/
structure RetryOutcome (ε α : Type) where
  result : Except (Option ε) α
  calls : Nat
  delays : List Nat
deriving Repr

/-- The retry loop body: `fuel` is the number of attempts still allowed
(initially `maxRetries`); after a failure a delay of
`initialDelay * 2 ^ i` is slept unless this was the final attempt. -/
def retryGo (attempts : Nat → Except ε α) (initialDelay : Nat) :
    Nat → Nat → Option ε → Nat → List Nat → RetryOutcome ε α
  | _, 0, lastError, calls, delays => ⟨.error lastError, calls, delays⟩
  | i, fuel + 1, _, calls, delays =>
    match attempts i with
    | .ok v => ⟨.ok v, calls + 1, delays⟩
    | .error e =>
      let delays' := if fuel ≠ 0 then delays ++ [initialDelay * 2 ^ i] else delays
      retryGo attempts initialDelay (i + 1) fuel (some e) (calls + 1) delays'

/-- `retryWithBackoff(fn, maxRetries = 3, initialDelay = 1000)`:
every failure is caught and retried until the attempt budget runs out;
the last error is rethrown after the final attempt. -/
def retryWithBackoff (attempts : Nat → Except ε α) (maxRetries : Nat := 3)
    (initialDelay : Nat := 1000) : RetryOutcome ε α :=
  retryGo attempts initialDelay 0 maxRetries none 0 []

/-! ## GitHub provider client (src/services/github.service.ts)

A raw API call either succeeds with repository metadata or fails with an
HTTP failure carrying the status and the rate-limit-exhausted header
state. The axios response interceptor re-throws a 403 whose
`x-ratelimit-remaining` header is `0` as a 429 `AppError`; every other
failure passes through. -/

/-- Metadata returned by `fetchRepoMetadata` for a repository. -/
structure GitHubRepoMetadata where
  owner : String
  repo : String
  full_name : String
  description : Option String := none
  language : Option String := none
  stars : Nat := 0
  forks : Nat := 0
  default_branch : String := "main"
deriving DecidableEq, BEq, Repr

/-- A failed raw HTTP call: response status plus whether the
`x-ratelimit-remaining` header was `0`. -/
structure HttpFailure where
  status : Nat
  rateLimitExhausted : Bool
deriving DecidableEq, Repr

/-- What the axios client surfaces to its caller after the response
interceptor ran: either the original HTTP failure, or the interceptor's
429 `AppError` (which has no `response` property). -/
inductive ClientError where
  | http (failure : HttpFailure)
  | rateLimited (e : AppError)
deriving DecidableEq, Repr

/-- The response interceptor of `GitHubService`: a 403 with the rate limit
exhausted becomes a 429 `AppError`; everything else is re-thrown as is. -/
def interceptError (f : HttpFailure) : ClientError :=
  if f.status = 403 ∧ f.rateLimitExhausted = true then
    ClientError.rateLimited ⟨429, "GitHub API rate limit exceeded. Please try again later."⟩
  else ClientError.http f

/-- One `client.get` call as seen through the interceptor. -/
def interceptResponse (resp : Except HttpFailure α) : Except ClientError α :=
  match resp with
  | .ok v => .ok v
  | .error f => .error (interceptError f)

/-- Outcome of `fetchRepoMetadata`: the mapped result plus how many raw
calls were made and which backoff delays were slept. -/
structure FetchOutcome where
  result : Except AppError GitHubRepoMetadata
  calls : Nat
  delays : List Nat
deriving Repr

/-- The catch block of `fetchRepoMetadata`: `error.response?.status` is
only present on an HTTP failure, so the interceptor's 429 `AppError`
(and an absent error) fall through to the generic 500. -/
def mapFetchError (e : Option ClientError) : AppError :=
  match e with
  | some (.http f) =>
    if f.status = 404 then ⟨404, "Repository not found"⟩
    else if f.status = 403 then ⟨403, "Repository is private or access denied"⟩
    else ⟨500, "Failed to fetch repository metadata"⟩
  | _ => ⟨500, "Failed to fetch repository metadata"⟩

/-- `GitHubService.fetchRepoMetadata` after URL parsing: the raw call is
wrapped in `retryWithBackoff` with the default budget (3 attempts,
initial delay 1000 ms), and only the final error is mapped to a typed
`AppError`. -/
def fetchRepoMetadata (attempts : Nat → Except HttpFailure GitHubRepoMetadata) :
    FetchOutcome :=
  let run := retryWithBackoff (fun i => interceptResponse (attempts i)) 3 1000
  { result :=
      match run.result with
      | .ok md => .ok md
      | .error e => .error (mapFetchError e)
    calls := run.calls
    delays := run.delays }

/-- An endpoint that always answers 404 (repository does not exist). -/
def alwaysNotFound : Nat → Except HttpFailure GitHubRepoMetadata :=
  fun _ => .error ⟨404, false⟩

/-- An endpoint that always answers 403 with rate-limit budget left. -/
def alwaysForbidden : Nat → Except HttpFailure GitHubRepoMetadata :=
  fun _ => .error ⟨403, false⟩

/-- An endpoint that always answers 403 with the rate limit exhausted. -/
def alwaysRateLimited : Nat → Except HttpFailure GitHubRepoMetadata :=
  fun _ => .error ⟨403, true⟩

/-! ## Insight generator (src/services/llm.service.ts)

Each of the four operations sends a prompt to the text-generation service
and falls back to a deterministic heuristic on any failure. The outcome
of each external call is part of the environment: `Except String
(Option String)` is either a thrown client error or the (possibly
absent) message content; the JSON parse of the improvement response is a
further environment component. -/

/-- `LLMAnalysis`: the four generated insights. -/
structure LLMAnalysis where
  summary : String
  vibe : String
  difficulty : String
  improvements : List String
deriving DecidableEq, BEq, Repr

/-- One structured improvement item as parsed from the JSON response. -/
structure ImprovementItem where
  category : String
  title : String
  description : String
deriving DecidableEq, Repr

/-- JS `a || b` for an optional string: an absent or empty string picks
the default. -/
def jsOrElse (v : Option String) (dflt : String) : String :=
  match v with
  | some s => if s = "" then dflt else s
  | none => dflt

/-- `getFallbackSummary`: template sentence from name, language,
description and star/fork counts (JS truthiness: an empty description
adds no clause). -/
def getFallbackSummary (metadata : GitHubRepoMetadata) : String :=
  metadata.full_name ++ " is a " ++ jsOrElse metadata.language "software" ++ " project" ++
    (match metadata.description with
     | some d => if d = "" then "" else ": " ++ d
     | none => "") ++
    ". The repository has " ++ toString metadata.stars ++ " stars and " ++
    toString metadata.forks ++ " forks."

/-- `getFallbackVibe`: score-banded archetype lookup. -/
def getFallbackVibe (scanResults : ScanResults) : String :=
  if scanResults.complexityScore < 30 then "Learning Project"
  else if scanResults.complexityScore < 50 then "Personal Tool"
  else if scanResults.complexityScore < 70 then "Open Source Library"
  else "Enterprise"

/-- `getFallbackDifficulty`: score-banded difficulty lookup. -/
def getFallbackDifficulty (scanResults : ScanResults) : String :=
  if scanResults.complexityScore < 25 then "Beginner"
  else if scanResults.complexityScore < 50 then "Intermediate"
  else if scanResults.complexityScore < 75 then "Advanced"
  else "Expert"

/-- `getFallbackImprovements`: the fixed 3-item list. -/
def getFallbackImprovements : List String :=
  ["[documentation] Add README: Create comprehensive documentation explaining project setup and usage.",
   "[testing] Implement tests: Add unit and integration tests to ensure code reliability.",
   "[code-quality] Add linting: Set up ESLint or similar tools for consistent code style."]

/-- `getFallbackAnalysis`: all four heuristics at once. -/
def getFallbackAnalysis (metadata : GitHubRepoMetadata) (scanResults : ScanResults) :
    LLMAnalysis :=
  { summary := getFallbackSummary metadata
    vibe := getFallbackVibe scanResults
    difficulty := getFallbackDifficulty scanResults
    improvements := getFallbackImprovements }

/-- `generateRepoSummary`: trim the content; a thrown call, absent
content or empty trimmed text falls back. -/
def generateRepoSummary (resp : Except String (Option String))
    (metadata : GitHubRepoMetadata) : String :=
  match resp with
  | .error _ => getFallbackSummary metadata
  | .ok none => getFallbackSummary metadata
  | .ok (some s) => if s.trim = "" then getFallbackSummary metadata else s.trim

/-- `classifyVibe`: same shape with the vibe fallback. -/
def classifyVibe (resp : Except String (Option String)) (scanResults : ScanResults) : String :=
  match resp with
  | .error _ => getFallbackVibe scanResults
  | .ok none => getFallbackVibe scanResults
  | .ok (some s) => if s.trim = "" then getFallbackVibe scanResults else s.trim

/-- `predictDifficulty`: same shape with the difficulty fallback. -/
def predictDifficulty (resp : Except String (Option String)) (scanResults : ScanResults) :
    String :=
  match resp with
  | .error _ => getFallbackDifficulty scanResults
  | .ok none => getFallbackDifficulty scanResults
  | .ok (some s) => if s.trim = "" then getFallbackDifficulty scanResults else s.trim

/-- The display line built for one parsed improvement item. -/
def formatImprovement (imp : ImprovementItem) : String :=
  "[" ++ imp.category ++ "] " ++ imp.title ++ ": " ++ imp.description

/-- `generateImprovementPlan`: a thrown call, absent/empty content or a
failed JSON parse falls back; otherwise each parsed item is formatted. -/
def generateImprovementPlan (resp : Except String (Option String))
    (parsed : Option (List ImprovementItem)) : List String :=
  match resp with
  | .error _ => getFallbackImprovements
  | .ok none => getFallbackImprovements
  | .ok (some s) =>
    if s.trim = "" then getFallbackImprovements
    else
      match parsed with
      | none => getFallbackImprovements
      | some items => items.map formatImprovement

/-- Environment for one `LLMService.analyzeRepository` run: the outcome
each of the four concurrent calls would produce, the JSON parse result of
the improvement response, and whether the `Promise.all` join itself
throws. -/
structure LLMEnv where
  summaryResp : Except String (Option String)
  vibeResp : Except String (Option String)
  difficultyResp : Except String (Option String)
  improvementResp : Except String (Option String)
  improvementParsed : Option (List ImprovementItem)
  joinThrows : Bool
deriving Repr

/-- `LLMService.analyzeRepository`: join the four concurrent operations;
if the join throws, return the all-fallback analysis. The function is
total: no failure of the generation service escapes it. -/
def llmAnalyzeRepository (env : LLMEnv) (metadata : GitHubRepoMetadata)
    (scanResults : ScanResults) : LLMAnalysis :=
  if env.joinThrows then getFallbackAnalysis metadata scanResults
  else
    { summary := generateRepoSummary env.summaryResp metadata
      vibe := classifyVibe env.vibeResp scanResults
      difficulty := predictDifficulty env.difficultyResp scanResults
      improvements := generateImprovementPlan env.improvementResp env.improvementParsed }

/-! ## Persisted repository records and the URL-keyed cache

`supabase/migrations` (the SQL schema, `repositories` table): note the
column constraint `github_url TEXT NOT NULL UNIQUE` — the URL is unique
globally, not per `(user_id, github_url)` pair. The insert model
enforces exactly that constraint; `RepoService.analyzeRepository` maps
any insert error to a generic 500. -/

/-- A persisted `repositories` row (the DB-generated `id` and the
timestamp columns are omitted; no modelled behaviour reads them). -/
structure Repository where
  user_id : String
  github_url : String
  name : String
  description : Option String
  language : Option String
  stars : Nat
  forks : Nat
  complexity_score : Nat
  difficulty_level : String
  vibe_classification : String
  summary : String
  tags : List String
deriving DecidableEq, BEq, Repr

/-- Insert into `repositories` under the schema constraint
`github_url TEXT NOT NULL UNIQUE`: any row with the same URL — whoever
owns it — makes the insert fail, which the service surfaces as a 500. -/
def insertRepository (db : List Repository) (row : Repository) :
    Except AppError (List Repository) :=
  if db.any (fun r => r.github_url == row.github_url) then
    .error ⟨500, "Failed to save repository analysis"⟩
  else .ok (db ++ [row])

/-- One entry of the in-process cache: value plus expiry timestamp
(milliseconds), as in `cache.service.ts`. -/
structure CacheEntry where
  key : String
  value : Repository
  expiresAt : Nat
deriving Repr

/-- Result of a cache read: the value if present and fresh, plus the
store after the lazy eviction a stale read performs. -/
structure CacheReadResult where
  value : Option Repository
  store : List CacheEntry
deriving Repr

/-- `CacheService.get`: a missing key is a miss; an expired entry is
deleted lazily and reported as a miss. -/
def cacheGet (cache : List CacheEntry) (now : Nat) (key : String) : CacheReadResult :=
  match cache.find? (fun e => e.key == key) with
  | none => { value := none, store := cache }
  | some e =>
    if now > e.expiresAt then
      { value := none, store := cache.filter (fun x => !(x.key == key)) }
    else { value := some e.value, store := cache }

/-- `CacheService.set`: `expiresAt = Date.now() + ttl * 1000`; an existing
key is overwritten in place, otherwise the entry is appended. -/
def cacheSet (cache : List CacheEntry) (key : String) (value : Repository)
    (now ttl : Nat) : List CacheEntry :=
  let entry : CacheEntry := { key := key, value := value, expiresAt := now + ttl * 1000 }
  if cache.any (fun e => e.key == key) then
    cache.map (fun e => if e.key == key then entry else e)
  else cache ++ [entry]

/-! ## Analysis orchestrator (src/services/repo.service.ts,
`RepoService.analyzeRepository`) -/

/-- Environment of one analysis run: what `cloneRepoStructure` would
return (metadata plus file tree, or a typed fetch error) and the insight
generator environment. -/
structure AnalyzeEnv where
  fetch : Except AppError (GitHubRepoMetadata × List FileTreeNode)
  llm : LLMEnv
deriving Repr

/-- Outcome of one `analyzeRepository` call: the response, the cache and
DB afterwards, and how often each expensive collaborator was invoked. -/
structure AnalyzeOutcome where
  result : Except AppError Repository
  cache : List CacheEntry
  db : List Repository
  githubCalls : Nat
  scannerCalls : Nat
  llmCalls : Nat
deriving Repr

/-- The row built by step 4 of `analyzeRepository` (the structured
metadata blob is carried by the scan results and insights themselves). -/
def buildRepositoryRow (userId githubUrl : String) (metadata : GitHubRepoMetadata)
    (scanResults : ScanResults) (analysis : LLMAnalysis) : Repository :=
  { user_id := userId
    github_url := githubUrl
    name := metadata.repo
    description := metadata.description
    language := metadata.language
    stars := metadata.stars
    forks := metadata.forks
    complexity_score := scanResults.complexityScore
    difficulty_level := analysis.difficulty
    vibe_classification := analysis.vibe
    summary := analysis.summary
    tags := [] }

/-- The pipeline taken once the cache gate did not fire: exact
`(user, URL)` lookup in the store, then fetch, scan, generate, persist,
and re-populate the cache with a 24-hour expiry. -/
def analyzePipeline (env : AnalyzeEnv) (now : Nat) (cache1 : List CacheEntry)
    (db : List Repository) (userId githubUrl cacheKey : String) : AnalyzeOutcome :=
  match db.find? (fun r => r.user_id == userId && r.github_url == githubUrl) with
  | some existing =>
    { result := .ok existing
      cache := cacheSet cache1 cacheKey existing now 86400
      db := db
      githubCalls := 0, scannerCalls := 0, llmCalls := 0 }
  | none =>
    match env.fetch with
    | .error e =>
      { result := .error e, cache := cache1, db := db
        githubCalls := 1, scannerCalls := 0, llmCalls := 0 }
    | .ok (metadata, fileTree) =>
      let scanResults := scanCodebase fileTree
      let analysis := llmAnalyzeRepository env.llm metadata scanResults
      let row := buildRepositoryRow userId githubUrl metadata scanResults analysis
      match insertRepository db row with
      | .error e =>
        { result := .error e, cache := cache1, db := db
          githubCalls := 1, scannerCalls := 1, llmCalls := 1 }
      | .ok db2 =>
        { result := .ok row
          cache := cacheSet cache1 cacheKey row now 86400
          db := db2
          githubCalls := 1, scannerCalls := 1, llmCalls := 1 }

/-- `RepoService.analyzeRepository`: cache key is `repo:` plus the URL;
a cache hit is honored only when the cached record belongs to the
requesting user, otherwise the pipeline continues as on a miss. -/
def analyzeRepository (env : AnalyzeEnv) (now : Nat) (cache : List CacheEntry)
    (db : List Repository) (userId githubUrl : String) : AnalyzeOutcome :=
  let cacheKey := "repo:" ++ githubUrl
  let read := cacheGet cache now cacheKey
  match read.value with
  | some cached =>
    if cached.user_id = userId then
      { result := .ok cached, cache := read.store, db := db
        githubCalls := 0, scannerCalls := 0, llmCalls := 0 }
    else analyzePipeline env now read.store db userId githubUrl cacheKey
  | none => analyzePipeline env now read.store db userId githubUrl cacheKey

/-! ## Daily log manager (src/services/log.service.ts) and activity
aggregates

The `daily_logs` table carries `UNIQUE(user_id, repo_id, log_date)` with
a nullable `repo_id`. PostgreSQL unique constraints treat NULLs as
distinct, so the constraint (and hence the 23505-to-409 mapping in
`createLog`) only fires when both the existing and the inserted row have
the same non-null `repo_id`. Row ids are modelled by a counter standing
in for the generated UUID primary key. -/

/-- A `daily_logs` row. -/
structure LogRow where
  id : Nat
  user_id : String
  repo_id : Option String
  log_date : String
  content : String
  hours_worked : Rat
  mood : Option String
deriving DecidableEq, Repr

/-- An `activity_days` row (the per-user per-date aggregate). -/
structure ActivityRow where
  user_id : String
  activity_date : String
  log_count : Nat
  total_hours : Rat
  is_active : Bool
deriving DecidableEq, Repr

/-- The log store: id counter, `daily_logs` rows, `activity_days` rows. -/
structure LogStore where
  nextId : Nat
  logs : List LogRow
  activity : List ActivityRow
deriving Repr

/-- The empty store. -/
def emptyLogStore : LogStore := { nextId := 0, logs := [], activity := [] }

/-- The rows the aggregate query of `updateActivityForDate` selects:
this user's logs for this date. -/
def dayLogs (logs : List LogRow) (userId date : String) : List LogRow :=
  logs.filter (fun r => r.user_id == userId && r.log_date == date)

/-- `logs.reduce((sum, log) => sum + (log.hours_worked || 0), 0)`. -/
def sumHours (rows : List LogRow) : Rat :=
  rows.foldl (fun sum r => sum + r.hours_worked) 0

/-- The aggregate `updateActivityForDate` computes for one (user, date):
count, summed hours, and active-if-any-log. -/
def recomputeActivity (logs : List LogRow) (userId date : String) : ActivityRow :=
  let rows := dayLogs logs userId date
  { user_id := userId
    activity_date := date
    log_count := rows.length
    total_hours := sumHours rows
    is_active := decide (rows.length > 0) }

/-- The supabase `upsert` with `onConflict: user_id,activity_date`:
replace the matching row in place, or append. -/
def upsertActivity (act : List ActivityRow) (row : ActivityRow) : List ActivityRow :=
  if act.any (fun a => a.user_id == row.user_id && a.activity_date == row.activity_date) then
    act.map (fun a =>
      if a.user_id == row.user_id && a.activity_date == row.activity_date then row else a)
  else act ++ [row]

/-- `LogService.updateActivityForDate`: always a full recomputation over
the current rows of that (user, date), never an incremental patch. -/
def updateActivityForDate (s : LogStore) (userId date : String) : LogStore :=
  { s with activity := upsertActivity s.activity (recomputeActivity s.logs userId date) }

/-- The `UNIQUE(user_id, repo_id, log_date)` conflict test under
PostgreSQL NULLS DISTINCT semantics: only two equal non-null repo ids
collide; two no-repo rows never do. -/
def logConflict (logs : List LogRow) (userId : String) (repoId : Option String)
    (date : String) : Bool :=
  logs.any (fun r =>
    r.user_id == userId && r.log_date == date && r.repo_id.isSome && r.repo_id == repoId)

/-- `LogService.createLog`: insert (23505 mapped to a 409 conflict), then
recompute the day. `hours_worked` defaults to 0, `repo_id` to null. -/
def createLog (s : LogStore) (userId : String) (repoId : Option String)
    (logDate content : String) (hoursWorked : Option Rat) (mood : Option String) :
    Except AppError (LogRow × LogStore) :=
  if logConflict s.logs userId repoId logDate then
    .error ⟨409, "Log entry already exists for this date and repository"⟩
  else
    let row : LogRow :=
      { id := s.nextId, user_id := userId, repo_id := repoId, log_date := logDate
        content := content, hours_worked := hoursWorked.getD 0, mood := mood }
    let s1 : LogStore := { s with nextId := s.nextId + 1, logs := s.logs ++ [row] }
    .ok (row, updateActivityForDate s1 userId logDate)

/-- The partial update `updateLog` builds: only the provided fields
change; user, date and id are untouched. -/
def applyLogUpdates (r : LogRow) (content : Option String) (hoursWorked : Option Rat)
    (mood : Option String) : LogRow :=
  { r with
    content := content.getD r.content
    hours_worked := hoursWorked.getD r.hours_worked
    mood := match mood with | some m => some m | none => r.mood }

/-- `LogService.updateLog`: scoped to (log id, user id); any other owner
sees a 404; on success the row's day is recomputed. -/
def updateLog (s : LogStore) (logId : Nat) (userId : String) (content : Option String)
    (hoursWorked : Option Rat) (mood : Option String) : Except AppError (LogRow × LogStore) :=
  match s.logs.find? (fun r => r.id == logId && r.user_id == userId) with
  | none => .error ⟨404, "Log entry not found or update failed"⟩
  | some row =>
    let row2 := applyLogUpdates row content hoursWorked mood
    let s1 : LogStore :=
      { s with
        logs := s.logs.map (fun r =>
          if r.id == logId && r.user_id == userId then applyLogUpdates r content hoursWorked mood
          else r) }
    .ok (row2, updateActivityForDate s1 userId row2.log_date)

/-- `LogService.deleteLog`: look the row up first (for its date), delete
rows matching (log id, user id), and recompute the day only when the
lookup found the row. -/
def deleteLog (s : LogStore) (logId : Nat) (userId : String) : LogStore :=
  let found := s.logs.find? (fun r => r.id == logId && r.user_id == userId)
  let s1 : LogStore :=
    { s with logs := s.logs.filter (fun r => !(r.id == logId && r.user_id == userId)) }
  match found with
  | none => s1
  | some row => updateActivityForDate s1 userId row.log_date

/-- One mutating request against the log manager. -/
inductive LogOp where
  | create (userId : String) (repoId : Option String) (logDate content : String)
      (hoursWorked : Option Rat) (mood : Option String)
  | update (logId : Nat) (userId : String) (content : Option String)
      (hoursWorked : Option Rat) (mood : Option String)
  | delete (logId : Nat) (userId : String)

/-- Apply one mutation; a rejected request (conflict, not found) leaves
the store unchanged. -/
def applyLogOp (s : LogStore) (op : LogOp) : LogStore :=
  match op with
  | .create u rid d c hw m =>
    match createLog s u rid d c hw m with
    | .ok (_, s2) => s2
    | .error _ => s
  | .update lid u c hw m =>
    match updateLog s lid u c hw m with
    | .ok (_, s2) => s2
    | .error _ => s
  | .delete lid u => deleteLog s lid u

/-- Run a sequence of mutations from the empty store. -/
def applyLogOps (ops : List LogOp) : LogStore := ops.foldl applyLogOp emptyLogStore

/-! ## Invariants of the log store -/

/-- Every stored aggregate row equals the full recomputation over the
current log rows of its (user, date). -/
def ActivityConsistent (s : LogStore) : Prop :=
  ∀ a ∈ s.activity, a = recomputeActivity s.logs a.user_id a.activity_date

/-- Every (user, date) that currently has log rows also has a stored
aggregate row. -/
def ActivityCovers (s : LogStore) : Prop :=
  ∀ u d, dayLogs s.logs u d ≠ [] →
    ∃ a ∈ s.activity, a.user_id = u ∧ a.activity_date = d

/-- Well-formedness of the store: ids are below the counter and distinct
(they stand in for the generated primary key), and the aggregates are
consistent and covering. -/
def LogStoreWF (s : LogStore) : Prop :=
  (∀ r ∈ s.logs, r.id < s.nextId) ∧ (s.logs.map (fun r => r.id)).Nodup ∧
    ActivityConsistent s ∧ ActivityCovers s

/-! ## Concrete records used in evaluations -/

/-- A concrete metadata record for a small public repository. -/
def demoMetadata : GitHubRepoMetadata :=
  { owner := "octo", repo := "demo", full_name := "octo/demo", description := none
    language := some "TypeScript", stars := 3, forks := 1, default_branch := "main" }

/-- A generation service that is entirely unreachable: every individual
call errors and the join itself does not throw. -/
def offlineLLMEnv : LLMEnv :=
  { summaryResp := .error "connect ECONNREFUSED", vibeResp := .error "connect ECONNREFUSED"
    difficultyResp := .error "connect ECONNREFUSED"
    improvementResp := .error "connect ECONNREFUSED"
    improvementParsed := none, joinThrows := false }

/-- An environment whose provider fetch succeeds with an empty tree and
whose generation service is offline. -/
def demoEnv : AnalyzeEnv := { fetch := .ok (demoMetadata, []), llm := offlineLLMEnv }

/-- The URL both users submit. -/
def demoUrl : String := "https://github.com/octo/demo"

/-- A generation environment whose join throws. -/
def joinThrowsLLMEnv : LLMEnv :=
  { summaryResp := .ok (some "a summary"), vibeResp := .ok (some "Startup MVP")
    difficultyResp := .ok (some "Beginner"), improvementResp := .ok (some "not json")
    improvementParsed := none, joinThrows := true }

/-- A record already persisted for user alice and the demo URL. -/
def warmRecord : Repository :=
  { user_id := "alice", github_url := demoUrl, name := "demo", description := none
    language := some "TypeScript", stars := 3, forks := 1, complexity_score := 28
    difficulty_level := "Intermediate", vibe_classification := "Learning Project"
    summary := "an analyzed demo repository", tags := [] }

/-! ## Band bounds of the complexity score -/

theorem fileCountBand_bounds (n : Nat) : 5 ≤ fileCountBand n ∧ fileCountBand n ≤ 30 := by
  unfold fileCountBand; split_ifs <;> omega

theorem dirCountBand_bounds (n : Nat) : 5 ≤ dirCountBand n ∧ dirCountBand n ≤ 20 := by
  unfold dirCountBand; split_ifs <;> omega

theorem languageCountBand_bounds (n : Nat) :
    5 ≤ languageCountBand n ∧ languageCountBand n ≤ 20 := by
  unfold languageCountBand; split_ifs <;> omega

theorem depCountBand_bounds (n : Nat) : depCountBand n ≤ 15 := by
  unfold depCountBand; split_ifs <;> omega

theorem configCountBand_bounds (n : Nat) : 3 ≤ configCountBand n ∧ configCountBand n ≤ 15 := by
  unfold configCountBand; split_ifs <;> omega

theorem calculateComplexity_bounds (files directories : List FileTreeNode)
    (languages : List (String × Nat)) (dependencies : List String) :
    18 ≤ calculateComplexity files directories languages dependencies ∧
      calculateComplexity files directories languages dependencies ≤ 100 := by
  have h1 := fileCountBand_bounds files.length
  have h2 := dirCountBand_bounds directories.length
  have h3 := languageCountBand_bounds languages.length
  have h4 := depCountBand_bounds dependencies.length
  have h5 := configCountBand_bounds (files.filter isConfigLike).length
  unfold calculateComplexity
  rw [Nat.min_def]
  split_ifs <;> omega

/-- C10: for every input file tree, including the empty one, the
complexity score lies in the interval [18, 100]: the five band minimums
are 5, 5, 5, 0 and 3 (sum 18) and the band maximums are 30, 20, 20, 15
and 15 (sum exactly 100), so the clamp to 100 never pushes the score
below 18 and the score is strictly above the 0 lower end of the spec's
stated 0..100 range. -/
theorem complexityScore_in_18_100 (fileTree : List FileTreeNode) :
    18 ≤ (scanCodebase fileTree).complexityScore ∧
      (scanCodebase fileTree).complexityScore ≤ 100 := by
  simpa [scanCodebase] using
    calculateComplexity_bounds
      (fileTree.filter (fun node => node.type == NodeType.file))
      (fileTree.filter (fun node => node.type == NodeType.dir))
      (detectLanguages (fileTree.filter (fun node => node.type == NodeType.file)))
      (extractDependencies (fileTree.filter (fun node => node.type == NodeType.file)))

/-- C2 counterexample: the empty scan does not score 18; the language
band contributes 15 for zero detected languages (0 is neither 1 nor 2
and falls into the `<= 4` branch), not the 5 claimed. -/
theorem scan_empty_complexity_ne_18 :
    (scanCodebase []).complexityScore ≠ 18 ∧ languageCountBand 0 ≠ 5 := by decide

/-- C2 amended: scanning an empty file tree yields a complexity score of
exactly 28, composed of band contributions 5 (file count) + 5 (directory
count) + 15 (language count: zero languages falls into the `<= 4`
branch) + 0 (dependencies) + 3 (config files). -/
theorem scan_empty_complexity_eq_28 :
    (scanCodebase []).complexityScore = 28 ∧
      fileCountBand 0 = 5 ∧ dirCountBand 0 = 5 ∧ languageCountBand 0 = 15 ∧
      depCountBand 0 = 0 ∧ configCountBand 0 = 3 := by decide

/-- C4 counterexample: at `today = 0` the week range starts at -7, not
-6, and contains 8 distinct dates, not 7. -/
theorem week_range_not_seven_days :
    (getDateRangeWeek 0).1 ≠ -6 ∧ (weekRangeDates 0).card ≠ 7 := by decide

/-- C4 amended: the `week` period resolves to the inclusive date range
[today - 7, today], which contains exactly 8 distinct calendar dates
(the trailing 7 days plus today). -/
theorem week_range_covers_eight_days (today : Int) :
    (getDateRangeWeek today).1 = today - 7 ∧ (getDateRangeWeek today).2 = today ∧
      weekRangeDates today = Finset.Icc (today - 7) today ∧
      (weekRangeDates today).card = 8 := by
  refine ⟨rfl, rfl, rfl, ?_⟩
  simp only [weekRangeDates, getDateRangeWeek, Int.card_Icc]
  omega

/-- C7: streak scenarios. Zero active days give all-zero with no last
active date; activity on today, yesterday and the day before with a gap
at day-4 gives a current streak of 3; no activity today gives a current
streak of 0; two separate 3-day runs separated by a gap give a longest
streak of 3. -/
theorem calculateStreak_scenarios (today : Int) :
    calculateStreak today [] = ⟨0, 0, none⟩ ∧
      (calculateStreak today [today, today - 1, today - 2, today - 4]).currentStreak = 3 ∧
      (calculateStreak today [today - 1, today - 2, today - 3]).currentStreak = 0 ∧
      (calculateStreak today
          [today, today - 1, today - 2, today - 5, today - 6, today - 7]).longestStreak = 3 := by
  refine ⟨rfl, ?_, ?_, ?_⟩ <;>
    · simp only [calculateStreak, currentStreakFrom, longestStreakFrom]
      split_ifs <;> omega

/-- C5 counterexample: a provider endpoint that always answers 404 is
still retried — `fetchRepoMetadata` makes 3 calls with backoff sleeps,
instead of failing immediately after a single attempt. -/
theorem notFound_is_retried :
    (fetchRepoMetadata alwaysNotFound).calls ≠ 1 ∧
      (fetchRepoMetadata alwaysNotFound).delays ≠ [] := by decide

/-- C5 amended: `retryWithBackoff` retries every failure — 404, 403 and
rate-limited responses included — for the full fixed budget of 3
attempts with doubling delays (1000 ms then 2000 ms); only after the
final attempt is the status mapped (404 to not-found, 403 to
access-denied), and the interceptor's 429 rate-limited error is
re-wrapped by the catch block into the generic 500. -/
theorem all_failures_retried_with_backoff (f : HttpFailure) :
    (fetchRepoMetadata (fun _ => .error f)).calls = 3 ∧
      (fetchRepoMetadata (fun _ => .error f)).delays = [1000, 2000] ∧
      (fetchRepoMetadata alwaysNotFound).result = .error ⟨404, "Repository not found"⟩ ∧
      (fetchRepoMetadata alwaysForbidden).result =
        .error ⟨403, "Repository is private or access denied"⟩ ∧
      (fetchRepoMetadata alwaysRateLimited).result =
        .error ⟨500, "Failed to fetch repository metadata"⟩ := by
  refine ⟨?_, ?_, rfl, rfl, rfl⟩ <;>
    simp [fetchRepoMetadata, retryWithBackoff, retryGo, interceptResponse]

/-- C3: under the schema constraint `UNIQUE(user_id, repo_id, log_date)`
with a nullable `repo_id`, PostgreSQL treats NULLs as distinct, so a
second no-repository log for the same (user, date) is inserted instead
of being rejected with 409 — the store ends with two rows. The conflict
does fire for a duplicate non-null repository id, and a different
repository id on the same date succeeds. -/
theorem createLog_noRepo_duplicate_not_conflicted :
    (createLog (applyLogOp emptyLogStore
          (LogOp.create "user-1" none "2024-01-01" "first entry" (some 2) none))
        "user-1" none "2024-01-01" "second entry" (some 3) none).isOk = true ∧
      (applyLogOps
          [LogOp.create "user-1" none "2024-01-01" "first entry" (some 2) none,
           LogOp.create "user-1" none "2024-01-01" "second entry" (some 3) none]).logs.length
        = 2 ∧
      (createLog (applyLogOp emptyLogStore
            (LogOp.create "user-1" (some "repo-9") "2024-01-01" "first entry" (some 2) none))
          "user-1" (some "repo-9") "2024-01-01" "second entry" (some 3) none) =
        .error ⟨409, "Log entry already exists for this date and repository"⟩ ∧
      (createLog (applyLogOp emptyLogStore
            (LogOp.create "user-1" (some "repo-9") "2024-01-01" "first entry" (some 2) none))
          "user-1" (some "repo-8") "2024-01-01" "second entry" (some 3) none).isOk = true := by
  exact ⟨rfl, rfl, rfl, rfl⟩

/-- C1: two distinct users analyze the same URL. The first run persists a
record, but the schema's global `UNIQUE(github_url)` makes the second
user's insert fail, so the second user receives the generic 500 instead
of an independent record of their own — the per-user uniqueness the spec
states is not what the schema enforces. -/
theorem second_user_same_url_hits_global_unique :
    (analyzeRepository demoEnv 0 [] [] "alice" demoUrl).result.isOk = true ∧
      (analyzeRepository demoEnv 0
          (analyzeRepository demoEnv 0 [] [] "alice" demoUrl).cache
          (analyzeRepository demoEnv 0 [] [] "alice" demoUrl).db
          "bob" demoUrl).result =
        .error ⟨500, "Failed to save repository analysis"⟩ := by
  exact ⟨rfl, rfl⟩

/-- C9: insight generation never fails the request. If the joined
aggregate call throws, the result is all four heuristic fallbacks at
once; each individual failure (thrown call, absent content, or a
malformed structured response for the improvement operation) is absorbed
by that operation's deterministic fallback. -/
theorem llm_failure_absorption (env : LLMEnv) (metadata : GitHubRepoMetadata)
    (scanResults : ScanResults) (e s : String) (parsed : Option (List ImprovementItem))
    (hj : env.joinThrows = true) :
    llmAnalyzeRepository env metadata scanResults =
      { summary := getFallbackSummary metadata, vibe := getFallbackVibe scanResults
        difficulty := getFallbackDifficulty scanResults
        improvements := getFallbackImprovements } ∧
      generateRepoSummary (.error e) metadata = getFallbackSummary metadata ∧
      generateRepoSummary (.ok none) metadata = getFallbackSummary metadata ∧
      classifyVibe (.error e) scanResults = getFallbackVibe scanResults ∧
      classifyVibe (.ok none) scanResults = getFallbackVibe scanResults ∧
      predictDifficulty (.error e) scanResults = getFallbackDifficulty scanResults ∧
      predictDifficulty (.ok none) scanResults = getFallbackDifficulty scanResults ∧
      generateImprovementPlan (.error e) parsed = getFallbackImprovements ∧
      generateImprovementPlan (.ok (some s)) none = getFallbackImprovements := by
  refine ⟨?_, rfl, rfl, rfl, rfl, rfl, rfl, rfl, ?_⟩
  · simp [llmAnalyzeRepository, hj, getFallbackAnalysis]
  · by_cases h : s.trim = "" <;> simp [generateImprovementPlan, h]

/-- Witness for the C9 theorem at a concrete environment. -/
theorem llm_failure_absorption_witness :
    llmAnalyzeRepository joinThrowsLLMEnv demoMetadata (scanCodebase []) =
      { summary := getFallbackSummary demoMetadata
        vibe := getFallbackVibe (scanCodebase [])
        difficulty := getFallbackDifficulty (scanCodebase [])
        improvements := getFallbackImprovements } ∧
      generateImprovementPlan (.ok (some "not json")) none = getFallbackImprovements :=
  ⟨(llm_failure_absorption joinThrowsLLMEnv demoMetadata (scanCodebase [])
      "connect ECONNREFUSED" "not json" none rfl).1,
   (llm_failure_absorption joinThrowsLLMEnv demoMetadata (scanCodebase [])
      "connect ECONNREFUSED" "not json" none rfl).2.2.2.2.2.2.2.2⟩

/-! ## Cache lookup after a refresh -/

theorem find?_replaceKey (cache : List CacheEntry) (entry : CacheEntry)
    (h : cache.any (fun e => e.key == entry.key) = true) :
    (cache.map (fun e => if e.key == entry.key then entry else e)).find?
        (fun e => e.key == entry.key) = some entry := by
  induction cache with
  | nil => simp at h
  | cons e rest ih =>
    by_cases he : (e.key == entry.key) = true
    · rw [List.map_cons, if_pos he, List.find?_cons_of_pos _ (by simp)]
    · have h2 : rest.any (fun x => x.key == entry.key) = true := by
        simp only [List.any_cons, Bool.or_eq_true] at h
        rcases h with h | h
        · exact absurd h he
        · exact h
      rw [List.map_cons, if_neg he, List.find?_cons_of_neg _ (by simpa using he)]
      exact ih h2

theorem find?_append_single (cache : List CacheEntry) (entry : CacheEntry)
    (h : cache.any (fun e => e.key == entry.key) = false) :
    (cache ++ [entry]).find? (fun e => e.key == entry.key) = some entry := by
  induction cache with
  | nil => simp [List.find?_cons]
  | cons e rest ih =>
    simp only [List.any_cons, Bool.or_eq_false_iff] at h
    simp [List.cons_append, List.find?_cons, h.1, ih h.2]

theorem find?_cacheSet_self (cache : List CacheEntry) (key : String) (v : Repository)
    (now ttl : Nat) :
    (cacheSet cache key v now ttl).find? (fun e => e.key == key) =
      some ⟨key, v, now + ttl * 1000⟩ := by
  unfold cacheSet
  by_cases h : cache.any (fun e => e.key == key) = true
  · rw [if_pos h]
    exact find?_replaceKey cache ⟨key, v, now + ttl * 1000⟩ h
  · rw [if_neg h]
    exact find?_append_single cache ⟨key, v, now + ttl * 1000⟩ (by simpa using h)

theorem cacheGet_cacheSet_self (cache : List CacheEntry) (key : String) (v : Repository)
    (now ttl : Nat) :
    (cacheGet (cacheSet cache key v now ttl) now key).value = some v := by
  unfold cacheGet
  rw [find?_cacheSet_self]
  have hfresh : ¬ now > now + ttl * 1000 := by omega
  simp [hfresh]

/-- C8: with the persisted record present for this exact (user, URL),
`analyzeRepository` returns it without invoking the provider client,
scanner or insight generator, for any cache state in which the cache gate
does not fire (cold cache or a cached record owned by someone else), and
the cache entry for the URL is refreshed with the returned record. -/
theorem analyze_short_circuits_on_warm_db (env : AnalyzeEnv) (now : Nat)
    (cache : List CacheEntry) (db : List Repository) (userId githubUrl : String)
    (r : Repository)
    (hdb : db.find? (fun x => x.user_id == userId && x.github_url == githubUrl) = some r)
    (hcache : ∀ c, (cacheGet cache now ("repo:" ++ githubUrl)).value = some c →
      c.user_id ≠ userId) :
    (analyzeRepository env now cache db userId githubUrl).result = .ok r ∧
      (analyzeRepository env now cache db userId githubUrl).githubCalls = 0 ∧
      (analyzeRepository env now cache db userId githubUrl).scannerCalls = 0 ∧
      (analyzeRepository env now cache db userId githubUrl).llmCalls = 0 ∧
      (analyzeRepository env now cache db userId githubUrl).db = db ∧
      (cacheGet (analyzeRepository env now cache db userId githubUrl).cache now
          ("repo:" ++ githubUrl)).value = some r := by
  rcases hv : (cacheGet cache now ("repo:" ++ githubUrl)).value with _ | c
  · simp only [analyzeRepository, analyzePipeline, hv, hdb]
    exact ⟨trivial, trivial, trivial, trivial, trivial, cacheGet_cacheSet_self _ _ _ _ _⟩
  · have hne : c.user_id ≠ userId := hcache c hv
    simp only [analyzeRepository, analyzePipeline, hv, hdb, if_neg hne]
    exact ⟨trivial, trivial, trivial, trivial, trivial, cacheGet_cacheSet_self _ _ _ _ _⟩

/-- Witness for the C8 theorem: warm database, completely cold cache. -/
theorem analyze_short_circuits_on_warm_db_witness :
    (analyzeRepository demoEnv 0 [] [warmRecord] "alice" demoUrl).result = .ok warmRecord ∧
      (analyzeRepository demoEnv 0 [] [warmRecord] "alice" demoUrl).githubCalls = 0 ∧
      (analyzeRepository demoEnv 0 [] [warmRecord] "alice" demoUrl).scannerCalls = 0 ∧
      (analyzeRepository demoEnv 0 [] [warmRecord] "alice" demoUrl).llmCalls = 0 ∧
      (analyzeRepository demoEnv 0 [] [warmRecord] "alice" demoUrl).db = [warmRecord] ∧
      (cacheGet (analyzeRepository demoEnv 0 [] [warmRecord] "alice" demoUrl).cache 0
          ("repo:" ++ demoUrl)).value = some warmRecord :=
  analyze_short_circuits_on_warm_db demoEnv 0 [] [warmRecord] "alice" demoUrl warmRecord rfl
    (by intro c hc; simp [cacheGet] at hc)

/-! ## No-drift of the activity aggregates: helper lemmas -/

theorem applyLogUpdates_id (r : LogRow) (c : Option String) (h : Option Rat)
    (m : Option String) : (applyLogUpdates r c h m).id = r.id := rfl

theorem applyLogUpdates_user (r : LogRow) (c : Option String) (h : Option Rat)
    (m : Option String) : (applyLogUpdates r c h m).user_id = r.user_id := rfl

theorem applyLogUpdates_date (r : LogRow) (c : Option String) (h : Option Rat)
    (m : Option String) : (applyLogUpdates r c h m).log_date = r.log_date := rfl

theorem recomputeActivity_user (logs : List LogRow) (u d : String) :
    (recomputeActivity logs u d).user_id = u := rfl

theorem recomputeActivity_date (logs : List LogRow) (u d : String) :
    (recomputeActivity logs u d).activity_date = d := rfl

theorem recomputeActivity_congr {logs1 logs2 : List LogRow} (u d : String)
    (h : dayLogs logs1 u d = dayLogs logs2 u d) :
    recomputeActivity logs1 u d = recomputeActivity logs2 u d := by
  unfold recomputeActivity
  rw [h]

theorem key_bne_of_ne {u1 d1 u2 d2 : String} (h : ¬(u1 = u2 ∧ d1 = d2)) :
    (u1 == u2 && d1 == d2) = false := by
  cases hu : u1 == u2 <;> cases hd : d1 == d2 <;> simp_all

theorem dayLogs_append_other (logs : List LogRow) (row : LogRow) (u d : String)
    (h : (row.user_id == u && row.log_date == d) = false) :
    dayLogs (logs ++ [row]) u d = dayLogs logs u d := by
  simp [dayLogs, List.filter_append, h]

theorem filter_map_invariant {α : Type} (p : α → Bool) (f : α → α) (l : List α)
    (hp : ∀ r, p (f r) = p r) (hid : ∀ r ∈ l, p r = true → f r = r) :
    (l.map f).filter p = l.filter p := by
  induction l with
  | nil => rfl
  | cons a rest ih =>
    have ih' := ih fun r hr h => hid r (List.mem_cons_of_mem a hr) h
    by_cases ha : p a = true
    · have hfa : f a = a := hid a (List.mem_cons_self a rest) ha
      simp [List.filter_cons, hfa, ha, ih']
    · have ha' : p a = false := by simpa using ha
      have hfa : p (f a) = false := by rw [hp]; exact ha'
      simp [List.filter_cons, ha', hfa, ih']

theorem filter_filter_of_imp {α : Type} (p q : α → Bool) (l : List α)
    (h : ∀ r ∈ l, p r = true → q r = true) :
    (l.filter q).filter p = l.filter p := by
  induction l with
  | nil => rfl
  | cons a rest ih =>
    have ih' := ih fun r hr hpr => h r (List.mem_cons_of_mem a hr) hpr
    by_cases hq : q a = true
    · simp [List.filter_cons, hq, ih']
    · have hq' : q a = false := by simpa using hq
      have hp' : p a = false := by
        by_contra hc
        have := h a (List.mem_cons_self a rest) (by simpa using hc)
        rw [this] at hq'
        cases hq'
      simp [List.filter_cons, hq', hp', ih']

theorem mem_upsertActivity {act : List ActivityRow} {row a : ActivityRow}
    (h : a ∈ upsertActivity act row) :
    a = row ∨ (a ∈ act ∧
      (a.user_id == row.user_id && a.activity_date == row.activity_date) = false) := by
  unfold upsertActivity at h
  by_cases hany :
      act.any (fun x => x.user_id == row.user_id && x.activity_date == row.activity_date) = true
  · rw [if_pos hany] at h
    rcases List.mem_map.1 h with ⟨b, hb, hba⟩
    by_cases hk : (b.user_id == row.user_id && b.activity_date == row.activity_date) = true
    · rw [if_pos hk] at hba
      exact Or.inl hba.symm
    · rw [if_neg hk] at hba
      exact Or.inr ⟨hba ▸ hb, hba ▸ (by simpa using hk)⟩
  · rw [if_neg hany] at h
    rcases List.mem_append.1 h with h | h
    · refine Or.inr ⟨h, ?_⟩
      by_contra hc
      exact hany (List.any_eq_true.2 ⟨a, h, by simpa using hc⟩)
    · exact Or.inl (List.mem_singleton.1 h)

theorem self_mem_upsertActivity (act : List ActivityRow) (row : ActivityRow) :
    row ∈ upsertActivity act row := by
  unfold upsertActivity
  by_cases hany :
      act.any (fun x => x.user_id == row.user_id && x.activity_date == row.activity_date) = true
  · rw [if_pos hany]
    rcases List.any_eq_true.1 hany with ⟨b, hb, hkb⟩
    exact List.mem_map.2 ⟨b, hb, by rw [if_pos hkb]⟩
  · rw [if_neg hany]
    exact List.mem_append.2 (Or.inr (List.mem_singleton.2 rfl))

theorem mem_upsertActivity_of_ne {act : List ActivityRow} {row a : ActivityRow}
    (ha : a ∈ act)
    (hk : (a.user_id == row.user_id && a.activity_date == row.activity_date) = false) :
    a ∈ upsertActivity act row := by
  unfold upsertActivity
  by_cases hany :
      act.any (fun x => x.user_id == row.user_id && x.activity_date == row.activity_date) = true
  · rw [if_pos hany]
    exact List.mem_map.2 ⟨a, ha, by rw [if_neg (by simp [hk])]⟩
  · rw [if_neg hany]
    exact List.mem_append.2 (Or.inl ha)

/-- After a raw logs mutation that only touched day (u, d), recomputing
that day restores consistency and coverage of the whole aggregate
table. `oldLogs` are the rows before the mutation; `s` already carries
the mutated rows but the untouched aggregates. -/
theorem updateActivity_restores (s : LogStore) (oldLogs : List LogRow) (u d : String)
    (hcons : ∀ a ∈ s.activity, a = recomputeActivity oldLogs a.user_id a.activity_date)
    (hcov : ∀ u' d', dayLogs oldLogs u' d' ≠ [] →
      ∃ a ∈ s.activity, a.user_id = u' ∧ a.activity_date = d')
    (hdays : ∀ u' d', ¬(u' = u ∧ d' = d) → dayLogs s.logs u' d' = dayLogs oldLogs u' d') :
    ActivityConsistent (updateActivityForDate s u d) ∧
      ActivityCovers (updateActivityForDate s u d) := by
  constructor
  · intro a ha
    rcases mem_upsertActivity ha with rfl | ⟨ha', hk⟩
    · rfl
    · have hkey : ¬(a.user_id = u ∧ a.activity_date = d) := by
        rintro ⟨h1, h2⟩
        rw [recomputeActivity_user, recomputeActivity_date] at hk
        rw [h1, h2] at hk
        simp at hk
      have heq := hdays a.user_id a.activity_date hkey
      calc a = recomputeActivity oldLogs a.user_id a.activity_date := hcons a ha'
        _ = recomputeActivity s.logs a.user_id a.activity_date :=
          (recomputeActivity_congr _ _ heq).symm
        _ = recomputeActivity (updateActivityForDate s u d).logs a.user_id a.activity_date := rfl
  · intro u' d' hne
    by_cases hud : u' = u ∧ d' = d
    · obtain ⟨rfl, rfl⟩ := hud
      exact ⟨recomputeActivity s.logs u' d', self_mem_upsertActivity _ _, rfl, rfl⟩
    · have hold : dayLogs oldLogs u' d' ≠ [] := by
        rw [← hdays u' d' hud]; exact hne
      obtain ⟨a, ha, h1, h2⟩ := hcov u' d' hold
      refine ⟨a, mem_upsertActivity_of_ne ha ?_, h1, h2⟩
      rw [recomputeActivity_user, recomputeActivity_date, h1, h2]
      exact key_bne_of_ne hud

/-- With distinct ids, any row matching the (log id, user) lookup is the
row `find?` returned. -/
theorem matched_eq_of_nodup (logs : List LogRow) (lid : Nat) (u : String) (row : LogRow)
    (hnodup : (logs.map (fun r => r.id)).Nodup)
    (hfind : logs.find? (fun r => r.id == lid && r.user_id == u) = some row) :
    ∀ r ∈ logs, (r.id == lid && r.user_id == u) = true → r = row := by
  intro r hr hp
  have hmem := List.mem_of_find?_eq_some hfind
  have hpred := List.find?_some hfind
  have h1 : r.id = lid := by
    simp only [Bool.and_eq_true, beq_iff_eq] at hp
    exact hp.1
  have h2 : row.id = lid := by
    simp only [Bool.and_eq_true, beq_iff_eq] at hpred
    exact hpred.1
  exact List.inj_on_of_nodup_map hnodup hr hmem (by rw [h1, h2])

theorem wf_createLog (s : LogStore) (u : String) (rid : Option String) (d c : String)
    (hw : Option Rat) (m : Option String) (hwf : LogStoreWF s) :
    LogStoreWF (applyLogOp s (.create u rid d c hw m)) := by
  obtain ⟨hbound, hnodup, hcons, hcov⟩ := hwf
  by_cases hconf : logConflict s.logs u rid d = true
  · have hstep : applyLogOp s (.create u rid d c hw m) = s := by
      simp only [applyLogOp, createLog]
      rw [if_pos hconf]
    rw [hstep]
    exact ⟨hbound, hnodup, hcons, hcov⟩
  · set row : LogRow :=
      { id := s.nextId, user_id := u, repo_id := rid, log_date := d, content := c
        hours_worked := hw.getD 0, mood := m } with hrow
    have hstep : applyLogOp s (.create u rid d c hw m) =
        updateActivityForDate { s with nextId := s.nextId + 1, logs := s.logs ++ [row] }
          u d := by
      simp only [applyLogOp, createLog]
      rw [if_neg hconf]
    have hdays : ∀ u' d', ¬(u' = u ∧ d' = d) →
        dayLogs (s.logs ++ [row]) u' d' = dayLogs s.logs u' d' := by
      intro u' d' hne
      refine dayLogs_append_other s.logs _ u' d' ?_
      exact key_bne_of_ne fun h => hne ⟨h.1.symm, h.2.symm⟩
    have hrest := updateActivity_restores
      { s with nextId := s.nextId + 1, logs := s.logs ++ [row] } s.logs u d hcons hcov hdays
    have hb : ∀ r ∈ s.logs ++ [row], r.id < s.nextId + 1 := by
      intro r hr
      rcases List.mem_append.1 hr with hr | hr
      · exact Nat.lt_succ_of_lt (hbound r hr)
      · rw [List.mem_singleton.1 hr]
        exact Nat.lt_succ_self _
    have hn : ((s.logs ++ [row]).map (fun r => r.id)).Nodup := by
      rw [List.map_append, List.nodup_append]
      refine ⟨hnodup, List.nodup_singleton _, ?_⟩
      intro x hx hx2
      rcases List.mem_map.1 hx with ⟨r, hr, rfl⟩
      have hx3 : r.id = s.nextId := by simpa using hx2
      have hb2 := hbound r hr
      omega
    rw [hstep]
    exact ⟨hb, hn, hrest.1, hrest.2⟩

theorem wf_updateLog (s : LogStore) (lid : Nat) (u : String) (c : Option String)
    (hw : Option Rat) (m : Option String) (hwf : LogStoreWF s) :
    LogStoreWF (applyLogOp s (.update lid u c hw m)) := by
  obtain ⟨hbound, hnodup, hcons, hcov⟩ := hwf
  cases hfind : s.logs.find? (fun r => r.id == lid && r.user_id == u) with
  | none =>
    have hstep : applyLogOp s (.update lid u c hw m) = s := by
      simp only [applyLogOp, updateLog]
      rw [hfind]
    rw [hstep]
    exact ⟨hbound, hnodup, hcons, hcov⟩
  | some row =>
    have hpred := List.find?_some hfind
    have hrow_user : row.user_id = u := by
      simp only [Bool.and_eq_true, beq_iff_eq] at hpred
      exact hpred.2
    have huniq := matched_eq_of_nodup s.logs lid u row hnodup hfind
    set f : LogRow → LogRow := fun r =>
      if r.id == lid && r.user_id == u then applyLogUpdates r c hw m else r with hf
    have hstep : applyLogOp s (.update lid u c hw m) =
        updateActivityForDate { s with logs := s.logs.map f } u row.log_date := by
      simp only [applyLogOp, updateLog]
      rw [hfind]
      rfl
    have hfid : ∀ r, (f r).id = r.id := by
      intro r
      simp only [hf]
      by_cases h : (r.id == lid && r.user_id == u) = true
      · rw [if_pos h]
        exact applyLogUpdates_id r c hw m
      · rw [if_neg h]
    have hids : ∀ l : List LogRow, (l.map f).map (fun r => r.id) = l.map (fun r => r.id) := by
      intro l
      induction l with
      | nil => rfl
      | cons a t ih => simp [hfid a, ih]
    have hdays : ∀ u' d', ¬(u' = u ∧ d' = row.log_date) →
        dayLogs (s.logs.map f) u' d' = dayLogs s.logs u' d' := by
      intro u' d' hne
      apply filter_map_invariant
      · intro r
        simp only [hf]
        by_cases h : (r.id == lid && r.user_id == u) = true
        · rw [if_pos h, applyLogUpdates_user, applyLogUpdates_date]
        · rw [if_neg h]
      · intro r hr hp
        simp only [hf]
        by_cases h : (r.id == lid && r.user_id == u) = true
        · exfalso
          have hre := huniq r hr h
          subst hre
          simp only [Bool.and_eq_true, beq_iff_eq] at hp
          exact hne ⟨hp.1.symm.trans hrow_user, hp.2.symm⟩
        · rw [if_neg h]
    have hrest := updateActivity_restores { s with logs := s.logs.map f }
      s.logs u row.log_date hcons hcov hdays
    have hb : ∀ r ∈ s.logs.map f, r.id < s.nextId := by
      intro r hr
      rcases List.mem_map.1 hr with ⟨r0, hr0, rfl⟩
      rw [hfid r0]
      exact hbound r0 hr0
    have hn : ((s.logs.map f).map (fun r => r.id)).Nodup := by
      rw [hids]
      exact hnodup
    rw [hstep]
    exact ⟨hb, hn, hrest.1, hrest.2⟩

theorem wf_deleteLog (s : LogStore) (lid : Nat) (u : String) (hwf : LogStoreWF s) :
    LogStoreWF (applyLogOp s (.delete lid u)) := by
  obtain ⟨hbound, hnodup, hcons, hcov⟩ := hwf
  cases hfind : s.logs.find? (fun r => r.id == lid && r.user_id == u) with
  | none =>
    have hall : ∀ r ∈ s.logs, (r.id == lid && r.user_id == u) = false := by
      intro r hr
      simpa using List.find?_eq_none.1 hfind r hr
    have hsame : s.logs.filter (fun r => !(r.id == lid && r.user_id == u)) = s.logs := by
      apply List.filter_eq_self.2
      intro r hr
      simp [hall r hr]
    have hstep : applyLogOp s (.delete lid u) = s := by
      simp only [applyLogOp, deleteLog]
      rw [hfind, hsame]
    rw [hstep]
    exact ⟨hbound, hnodup, hcons, hcov⟩
  | some row =>
    have hpred := List.find?_some hfind
    have hrow_user : row.user_id = u := by
      simp only [Bool.and_eq_true, beq_iff_eq] at hpred
      exact hpred.2
    have huniq := matched_eq_of_nodup s.logs lid u row hnodup hfind
    have hstep : applyLogOp s (.delete lid u) =
        updateActivityForDate
          { s with logs := s.logs.filter (fun r => !(r.id == lid && r.user_id == u)) }
          u row.log_date := by
      simp only [applyLogOp, deleteLog]
      rw [hfind]
    have hdays : ∀ u' d', ¬(u' = u ∧ d' = row.log_date) →
        dayLogs (s.logs.filter (fun r => !(r.id == lid && r.user_id == u))) u' d' =
          dayLogs s.logs u' d' := by
      intro u' d' hne
      apply filter_filter_of_imp
      intro r hr hp
      by_cases h : (r.id == lid && r.user_id == u) = true
      · exfalso
        have hre := huniq r hr h
        subst hre
        simp only [Bool.and_eq_true, beq_iff_eq] at hp
        exact hne ⟨hp.1.symm.trans hrow_user, hp.2.symm⟩
      · simp [h]
    have hrest := updateActivity_restores
      { s with logs := s.logs.filter (fun r => !(r.id == lid && r.user_id == u)) }
      s.logs u row.log_date hcons hcov hdays
    have hb : ∀ r ∈ s.logs.filter (fun r => !(r.id == lid && r.user_id == u)),
        r.id < s.nextId := by
      intro r hr
      exact hbound r (List.mem_filter.1 hr).1
    have hn : ((s.logs.filter (fun r => !(r.id == lid && r.user_id == u))).map
        (fun r => r.id)).Nodup :=
      List.Nodup.sublist ((List.filter_sublist _).map _) hnodup
    rw [hstep]
    exact ⟨hb, hn, hrest.1, hrest.2⟩

theorem wf_applyLogOp (s : LogStore) (op : LogOp) (hwf : LogStoreWF s) :
    LogStoreWF (applyLogOp s op) := by
  cases op with
  | create u rid d c hw m => exact wf_createLog s u rid d c hw m hwf
  | update lid u c hw m => exact wf_updateLog s lid u c hw m hwf
  | delete lid u => exact wf_deleteLog s lid u hwf

theorem wf_foldl (ops : List LogOp) (s : LogStore) (hwf : LogStoreWF s) :
    LogStoreWF (ops.foldl applyLogOp s) := by
  induction ops generalizing s with
  | nil => exact hwf
  | cons op rest ih => exact ih _ (wf_applyLogOp s op hwf)

theorem emptyLogStore_wf : LogStoreWF emptyLogStore := by
  refine ⟨?_, ?_, ?_, ?_⟩
  · intro r hr
    cases hr
  · simp [emptyLogStore]
  · intro a ha
    cases ha
  · intro u d h
    exact absurd rfl h

/-- C6: after any sequence of log creates, updates and deletes starting
from the empty store, every stored activity aggregate exactly equals the
full recomputation over that day's current log rows (count, summed
hours, and active-if-any), and every (user, date) that has log rows has
an aggregate — there is no drift. -/
theorem aggregates_never_drift (ops : List LogOp) :
    (∀ a ∈ (applyLogOps ops).activity,
        a.log_count = (dayLogs (applyLogOps ops).logs a.user_id a.activity_date).length ∧
        a.total_hours = sumHours (dayLogs (applyLogOps ops).logs a.user_id a.activity_date) ∧
        a.is_active =
          decide (0 < (dayLogs (applyLogOps ops).logs a.user_id a.activity_date).length)) ∧
      ∀ u d, dayLogs (applyLogOps ops).logs u d ≠ [] →
        ∃ a ∈ (applyLogOps ops).activity, a.user_id = u ∧ a.activity_date = d := by
  have h := wf_foldl ops emptyLogStore emptyLogStore_wf
  refine ⟨?_, h.2.2.2⟩
  intro a ha
  have ha2 := h.2.2.1 a ha
  refine ⟨?_, ?_, ?_⟩ <;> rw [ha2] <;> rfl

end CodeVibe
